import Mathlib

/-!
Shallow embedding of `pkg/daemon/config.go` from the linuxptp-daemon
repository: the ptp4l configuration parser (`populatePtp4lConf`), the
event-source resolver (`getSource`), the SyncE relation extractor
(`extractSynceRelations`) and the two renderers (`renderSyncE4lConf`,
`renderPtp4lConf`), together with theorems settling the specification
claims about them.

Go strings are modelled as Lean `String`; the character-level operations
(`strings.Split`, `strings.TrimSpace`, `strings.HasPrefix`,
`strings.IndexByte`) are implemented over `String.data` so that the
functions stay executable and amenable to induction.
-/

set_option autoImplicit false

deriving instance DecidableEq for Except

namespace LinuxptpDaemon

/-- Go `strings.Split` with a one-character separator, over char lists.
`strings.Split("", sep)` is `[""]`, so the base case is `[[]]`. -/
def goSplit (sep : Char) : List Char → List (List Char)
  | [] => [[]]
  | c :: cs =>
    if c = sep then [] :: goSplit sep cs
    else
      match goSplit sep cs with
      | [] => [[c]]
      | h :: t => (c :: h) :: t

/-- Characters trimmed by Go `strings.TrimSpace` (the ASCII white-space
characters; the non-ASCII white-space code points never occur in the
inputs considered here). -/
def goIsSpace (c : Char) : Bool :=
  c = ' ' || c = '\t' || c = '\n' || c = '\r' || c = '\x0b' || c = '\x0c'

/-- Go `strings.TrimSpace` on a char list. -/
def goTrimList (l : List Char) : List Char :=
  ((l.dropWhile goIsSpace).reverse.dropWhile goIsSpace).reverse

/-- Go `strings.TrimSpace`. -/
def goTrim (s : String) : String :=
  String.mk (goTrimList s.data)

/-- Go `strings.HasPrefix s pre`. -/
def strStartsWith (s pre : String) : Bool :=
  pre.data.isPrefixOf s.data

/-- Lookup in an insertion-ordered map modelling a Go `map[string]string`. -/
def lookupOpt (opts : List (String × String)) (k : String) : Option String :=
  match opts with
  | [] => none
  | (k', v) :: rest => if k' = k then some v else lookupOpt rest k

/-- Assignment `m[k] = v` on a Go `map[string]string`, modelled as an
insertion-ordered association list: an existing key is overwritten in
place, a new key is appended. -/
def setOpt (opts : List (String × String)) (k v : String) : List (String × String) :=
  match opts with
  | [] => [(k, v)]
  | (k', v') :: rest => if k' = k then (k, v) :: rest else (k', v') :: setOpt rest k v

/-- Decimal digit run evaluated as a natural number. -/
def digitsVal (ds : List Char) : Nat :=
  ds.foldl (fun acc c => acc * 10 + (c.toNat - '0'.toNat)) 0

/-- A non-empty all-digit run, or failure. -/
def natOfDigits? (ds : List Char) : Option Nat :=
  if ds = [] then none
  else if ds.all Char.isDigit then some (digitsVal ds) else none

/-- Go `strconv.Atoi`: optional sign followed by a non-empty digit run.
On a syntax error Go returns the pair `(0, err)`; this model returns
`none` and the call sites use `0` for the value, matching the Go
assignment. (Go's range error on 64-bit overflow is not modelled; the
inputs considered stay far below it.) -/
def goAtoi (s : String) : Option Int :=
  match s.data with
  | '+' :: ds => (natOfDigits? ds).map Int.ofNat
  | '-' :: ds => (natOfDigits? ds).map (fun n => -(n : Int))
  | ds => (natOfDigits? ds).map Int.ofNat

/-- Go `strconv.ParseBool`: accepts exactly
`1 t T TRUE true True` and `0 f F FALSE false False`. -/
def goParseBool (s : String) : Option Bool :=
  if s = "1" ∨ s = "t" ∨ s = "T" ∨ s = "TRUE" ∨ s = "true" ∨ s = "True" then some true
  else if s = "0" ∨ s = "f" ∨ s = "F" ∨ s = "FALSE" ∨ s = "false" ∨ s = "False" then some false
  else none

/-- Modelled from the spec: `event.EventSource` is a string-typed
enumeration whose members used here are GNSS and PPS; the `event`
package itself is not part of the sources, and §9 of the spec notes
that the renderer's fallback relies on the type's zero value (the empty
string), distinct from both members. -/
abbrev EventSource := String

/-- Modelled from the spec: the GNSS event source. -/
def GNSS : EventSource := "gnss"

/-- Modelled from the spec: the PPS event source. -/
def PPS : EventSource := "pps"

/-- Modelled from the spec: `event.ClockType` with the three clock roles
GrandMaster (`GM`), BoundaryClock (`BC`) and OrdinaryClock (`OC`). -/
inductive ClockType where
  | GM
  | BC
  | OC
deriving DecidableEq, Repr

/-- One parsed configuration section: `ptp4lConfSection` from the source.
The Go `map[string]string` of options is modelled as an
insertion-ordered association list. -/
structure ptp4lConfSection where
  sectionName : String
  options : List (String × String)
deriving DecidableEq, Repr

/-- The parsed document: `ptp4lConf` from the source. -/
structure ptp4lConf where
  sections : List ptp4lConfSection
  mapping : List String
  profile_name : String
  clock_type : ClockType
  gnss_serial_port : String
deriving DecidableEq, Repr

/-- The scanning state of `populatePtp4lConf`: the currently open section
(name and options), the flushed sections, and the two flags tracked
while scanning. -/
structure ParseState where
  currentSectionName : String
  currentOptions : List (String × String)
  sections : List ptp4lConfSection
  globalIsDefined : Bool
  hasSlaveConfigDefined : Bool
deriving DecidableEq, Repr

/-- The zero scanning state at the top of `populatePtp4lConf`. -/
def initParseState : ParseState :=
  { currentSectionName := ""
    currentOptions := []
    sections := []
    globalIsDefined := false
    hasSlaveConfigDefined := false }

/-- One iteration of the line loop of `populatePtp4lConf`: trim the line,
skip comments, open a new section on `[` (flushing the previous one,
failing when the closing `]` is missing), record a `key value` option
inside an open section (the stored value is `line[split:]`, which keeps
the separating space; lines without a space are ignored), and fail on an
option line outside any section. -/
def processLine (st : ParseState) (rawLine : String) : Except String ParseState :=
  let line := goTrim rawLine
  if strStartsWith line "#" then .ok st
  else if strStartsWith line "[" then
    let closed :=
      if st.currentSectionName ≠ "" then
        st.sections ++ [⟨st.currentSectionName, st.currentOptions⟩]
      else st.sections
    match goSplit ']' line.data with
    | [] => .error ("Section missing closing ']': " ++ line)
    | firstPart :: restParts =>
      if restParts.isEmpty then .error ("Section missing closing ']': " ++ line)
      else
        let newName := String.mk firstPart ++ "]"
        .ok { currentSectionName := newName
              currentOptions := []
              sections := closed
              globalIsDefined := st.globalIsDefined || newName = "[global]"
              hasSlaveConfigDefined := st.hasSlaveConfigDefined }
  else if st.currentSectionName ≠ "" then
    let pre := line.data.takeWhile (fun c => c ≠ ' ')
    let post := line.data.dropWhile (fun c => c ≠ ' ')
    if pre ≠ [] ∧ post ≠ [] then
      let key := String.mk pre
      let value := String.mk post
      let slaveHit :=
        (key = "masterOnly" ∧ value = "0") ∨ (key = "serverOnly" ∧ value = "0") ∨
        (key = "slaveOnly" ∧ value = "1") ∨ (key = "clientOnly" ∧ value = "1")
      .ok { st with
            currentOptions := setOpt st.currentOptions key value
            hasSlaveConfigDefined := st.hasSlaveConfigDefined || decide slaveHit }
    else .ok st
  else .error ("Config option not in section: " ++ line)

/-- The line loop of `populatePtp4lConf`, short-circuiting on the first
error. -/
def populateLines : List String → ParseState → Except String ParseState
  | [], st => .ok st
  | l :: rest, st =>
    match processLine st l with
    | .error e => .error e
    | .ok st' => populateLines rest st'

/-- The epilogue of `populatePtp4lConf`: flush the open section,
synthesize an empty `[global]` section when none was seen, and classify
the clock role from the slave flag and the section count. -/
def finalizeParse (st : ParseState) : ptp4lConf :=
  let secs :=
    if st.currentSectionName ≠ "" then
      st.sections ++ [⟨st.currentSectionName, st.currentOptions⟩]
    else st.sections
  let secs := if st.globalIsDefined then secs else secs ++ [⟨"[global]", []⟩]
  let ct :=
    if !st.hasSlaveConfigDefined then ClockType.GM
    else if secs.length > 2 then ClockType.BC
    else ClockType.OC
  { sections := secs
    mapping := []
    profile_name := ""
    clock_type := ct
    gnss_serial_port := "" }

/-- Model of `(*ptp4lConf).populatePtp4lConf` from the source: split the input on
newlines and run the scan; a `nil` input skips the loop. The receiver is
a fresh `ptp4lConf`, so the fields other than `sections` and
`clock_type` are the Go zero values. -/
def populatePtp4lConf (config : Option String) : Except String ptp4lConf :=
  match config with
  | none => .ok (finalizeParse initParseState)
  | some text =>
    match populateLines ((goSplit '\n' text.data).map String.mk) initParseState with
    | .error e => .error e
    | .ok st => .ok (finalizeParse st)

/-- Model of `getSource` from the source: `GNSS` when the trimmed flag parses as
the boolean true, `PPS` otherwise (including parse failures). -/
def getSource (isTs2phcMaster : String) : EventSource :=
  match goParseBool (goTrim isTs2phcMaster) with
  | some true => GNSS
  | _ => PPS

/-- Modelled from the spec: the `synce` package constant
`ExtendedTLV_DISABLED`, the default "disabled" value of the
`extendedTlv` field (the first member of the constant block, value 0). -/
def ExtendedTLV_DISABLED : Int := 0

/-- Modelled from the spec: the `synce` package constant
`SYNCE_NETWORK_OPT_1`, the default network option 1. -/
def SYNCE_NETWORK_OPT_1 : Int := 1

/-- Model of `synce.Config` from the `synce` package as used by the extractor:
device name, attached interfaces, assigned clock identifier, the two
integer options and the optional external source. The externally owned
runtime-state fields (`LastQLState`, `LastClockState`) are initialized
empty and never inspected by this code, and are not modelled. -/
structure SynceConfig where
  name : String
  ifaces : List String
  clockId : String
  networkOption : Int
  extendedTlv : Int
  externalSource : String
deriving DecidableEq, Repr

/-- The zero `synce.Config{}` value the extractor starts from (note: the
zero value, not the defaulted one — `NetworkOption` starts at 0 here). -/
def zeroSynceConfig : SynceConfig :=
  { name := "", ifaces := [], clockId := "", networkOption := 0
    extendedTlv := 0, externalSource := "" }

/-- The regexp `[\x7b\x7d<>\[\] ]+` replaced by the empty string:
removes every brace, angle bracket, square bracket and space. -/
def stripSynceDelims (s : String) : String :=
  String.mk (s.data.filter (fun c =>
    ¬(c = '{' ∨ c = '}' ∨ c = '<' ∨ c = '>' ∨ c = '[' ∨ c = ']' ∨ c = ' ')))

/-- The device accumulator opened at a device-marker section: fields
reset to their defaults, the name taken from the stripped header and the
two integer options parsed from the section (keeping `strconv.Atoi`'s
zero result when the parse fails, exactly as the Go assignment does). -/
def openSynceDevice (sec : ptp4lConfSection) : SynceConfig :=
  let networkOption : Int :=
    match lookupOpt sec.options "network_option" with
    | some s =>
      match goAtoi (goTrim s) with
      | some n => n
      | none => 0
    | none => SYNCE_NETWORK_OPT_1
  let extendedTlv : Int :=
    match lookupOpt sec.options "extended_tlv" with
    | some s =>
      match goAtoi (goTrim s) with
      | some n => n
      | none => 0
    | none => ExtendedTLV_DISABLED
  { name := stripSynceDelims sec.sectionName
    ifaces := []
    clockId := ""
    networkOption := networkOption
    extendedTlv := extendedTlv
    externalSource := "" }

/-- Closing a device accumulator: attach the pending interface list when
it is non-empty, and register the device only when its name is
non-empty. Mirrors the flush both at a new device marker and at the end
of the scan. Note the pending `ifaces` list itself is not cleared by the
source. -/
def flushSynceDevice (r : List SynceConfig) (ifaces : List String)
    (cur : SynceConfig) : List SynceConfig :=
  let cur := if ifaces ≠ [] then { cur with ifaces := ifaces } else cur
  if cur.name ≠ "" then r ++ [cur] else r

/-- The section scan of `extractSynceRelations`: device markers `[<`
flush and reopen the accumulator, external-source markers `[\x7b` set its
external source, and any other bracketed section except `[global]`
appends its stripped name to the pending interface list — which is never
reset between devices. -/
def extractLoop : List ptp4lConfSection → List SynceConfig → List String →
    SynceConfig → List SynceConfig
  | [], r, ifaces, cur => flushSynceDevice r ifaces cur
  | sec :: rest, r, ifaces, cur =>
    if strStartsWith sec.sectionName "[<" then
      extractLoop rest (flushSynceDevice r ifaces cur) ifaces (openSynceDevice sec)
    else if strStartsWith sec.sectionName "[\x7b" then
      extractLoop rest r ifaces { cur with externalSource := stripSynceDelims sec.sectionName }
    else if strStartsWith sec.sectionName "[" ∧ sec.sectionName ≠ "[global]" then
      extractLoop rest r (ifaces ++ [stripSynceDelims sec.sectionName]) cur
    else
      extractLoop rest r ifaces cur

/-- Model of `(*ptp4lConf).extractSynceRelations` from the source: the Relations
sequence (`synce.Relations.Devices`) grouped from the document sections.
`AddDeviceConfig` of the `synce` package is modelled from the spec as
appending the registered device to the ordered sequence. -/
def extractSynceRelations (conf : ptp4lConf) : List SynceConfig :=
  extractLoop conf.sections [] [] zeroSynceConfig

/-- Modelled from the spec: `synce.Relations.AddClockIds` assigns each
extracted device a clock identifier derived from the supplied settings
mapping (the exact derivation lives in the `synce` package, outside the
sources; only the per-device assignment matters here). -/
def addClockIds (ptpSettings : String → String) (devices : List SynceConfig) :
    List SynceConfig :=
  devices.map (fun d => { d with clockId := ptpSettings d.name })

/-- The `for k, v := range section.options` emission shared by both
renderers: one `key value` line per stored option (the stored value
itself begins with the separating space, so the emitted line carries two
characters between key and value text). -/
def renderOptions (out : String) (opts : List (String × String)) : String :=
  opts.foldl (fun acc kv => acc ++ "\n" ++ kv.1 ++ " " ++ kv.2) out

/-- The section loop of `renderSyncE4lConf`. A device-marker section
lacking a `clock_id` option receives `relations.Devices[deviceIdx]`'s
identifier — written into the section's own options map, which this
model renders as the returned updated section list — and bumps the
index. An out-of-range index (Go: panic) is modelled as `none`. -/
def synceRenderLoop (rels : List SynceConfig) :
    List ptp4lConfSection → String → Nat → Option (String × List ptp4lConfSection)
  | [], out, _ => some (out, [])
  | sec :: rest, out, deviceIdx =>
    if strStartsWith sec.sectionName "[<" ∧ lookupOpt sec.options "clock_id" = none then
      match rels.get? deviceIdx with
      | none => none
      | some d =>
        let sec' : ptp4lConfSection :=
          { sec with options := setOpt sec.options "clock_id" d.clockId }
        (synceRenderLoop rels rest
            (renderOptions (out ++ "\n" ++ sec.sectionName) sec'.options) (deviceIdx + 1)).map
          (fun p => (p.1, sec' :: p.2))
    else
      (synceRenderLoop rels rest
          (renderOptions (out ++ "\n" ++ sec.sectionName) sec.options) deviceIdx).map
        (fun p => (p.1, sec :: p.2))

/-- Model of `(*ptp4lConf).renderSyncE4lConf` from the source: extract the
relations, assign clock identifiers, then emit every section, injecting
a `clock_id` option into device-marker sections that lack one. The Go
function returns `(configOut, relations)` and mutates the document's
option maps in place; the model returns the rendered text, the relations
and the post-call section list, with `none` for the out-of-range panic. -/
def renderSyncE4lConf (conf : ptp4lConf) (ptpSettings : String → String) :
    Option (String × List SynceConfig × List ptp4lConfSection) :=
  let out := "#profile: " ++ conf.profile_name ++ "\n"
  let relations := addClockIds ptpSettings (extractSynceRelations conf)
  (synceRenderLoop relations conf.sections out 0).map
    (fun p => (p.1, relations, p.2))

/-- Model of `config.Iface` from the `config` package as used by the plain
renderer (modelled from the spec's render side-artifact plus the fields
the source populates): interface name, resolved event source, hardware
clock id and the master flag. -/
structure Iface where
  name : String
  source : EventSource
  phcId : String
  isMaster : Bool
deriving DecidableEq, Repr

/-- The section loop of `renderPtp4lConf`: track the most recent
`[nmea]` section's `ts2phc.master` source, and for every section other
than `[global]` and `[nmea]` append the bracket-stripped name to the
mapping and an `Iface` to the side artifact. The local Go variable's
`IsMaster` is parsed (`_isMaster` here) but the appended literal copies
only `Name`, `Source` and `PhcId`, so the emitted entry keeps the zero
value `false`. -/
def ptp4lRenderLoop : List ptp4lConfSection → String → EventSource →
    List String → List Iface → String × List String × List Iface
  | [], out, _, mapping, ifaces => (out, mapping, ifaces)
  | sec :: rest, out, nmea_source, mapping, ifaces =>
    let nmea_source :=
      if sec.sectionName = "[nmea]" then
        match lookupOpt sec.options "ts2phc.master" with
        | some s => getSource s
        | none => nmea_source
      else nmea_source
    if sec.sectionName ≠ "[global]" ∧ sec.sectionName ≠ "[nmea]" then
      let i := String.mk (sec.sectionName.data.filter (fun c => ¬(c = '[' ∨ c = ']')))
      let source :=
        match lookupOpt sec.options "ts2phc.master" with
        | some s => getSource s
        | none => nmea_source
      let _isMaster :=
        match lookupOpt sec.options "masterOnly" with
        | some s => (goParseBool (goTrim s)).getD false
        | none => false
      ptp4lRenderLoop rest (renderOptions (out ++ "\n" ++ sec.sectionName) sec.options)
        nmea_source (mapping ++ [i])
        (ifaces ++ [{ name := i, source := source, phcId := "", isMaster := false }])
    else
      ptp4lRenderLoop rest (renderOptions (out ++ "\n" ++ sec.sectionName) sec.options)
        nmea_source mapping ifaces

/-- Model of `(*ptp4lConf).renderPtp4lConf` from the source: the profile header
followed by every section and its options, plus the rebuilt `mapping`
and the `Iface` side artifact. The `nmea_source` state starts at the
`event.EventSource` zero value (the empty string). -/
def renderPtp4lConf (conf : ptp4lConf) : String × List String × List Iface :=
  let out := "#profile: " ++ conf.profile_name ++ "\n"
  ptp4lRenderLoop conf.sections out "" [] []

/-! ## Helper lemmas -/

theorem string_mk_data (s : String) : String.mk s.data = s := by
  cases s; rfl

theorem string_data_append (a b : String) : (a ++ b).data = a.data ++ b.data := by
  cases a; cases b; rfl

theorem dropWhile_head_false (p : Char → Bool) :
    ∀ (l : List Char) (c : Char) (t : List Char), l.dropWhile p = c :: t → p c = false := by
  intro l
  induction l with
  | nil => intro c t h; simp [List.dropWhile] at h
  | cons a l ih =>
    intro c t h
    rw [List.dropWhile_cons] at h
    by_cases hp : p a
    · rw [if_pos hp] at h
      exact ih c t h
    · rw [if_neg hp] at h
      cases h
      simpa using hp

/-- A stored option value always begins with the separating space, so it
can never equal a bare digit string. -/
theorem stored_value_head_space (line : List Char) (c : Char) (t : List Char)
    (h : line.dropWhile (fun c => c ≠ ' ') = c :: t) : c = ' ' := by
  have hf := dropWhile_head_false (fun c => decide (c ≠ ' ')) line c t h
  simpa using hf

theorem mk_space_cons_ne_digit (t : List Char) (d : Char) (hd : d ≠ ' ') :
    String.mk (' ' :: t) ≠ String.mk [d] := by
  intro h
  have h2 : (' ' :: t) = [d] := by
    have := congrArg String.data h
    simpa using this
  cases h2
  exact hd rfl

/-- The four slave-indicating comparisons test the stored value against
`"0"`/`"1"`, but the stored value is `line[split:]`, which always begins
with the separating space - so one scan step can never set the slave
flag. -/
theorem processLine_hasSlave (st : ParseState) (l : String) (st' : ParseState)
    (hst : st.hasSlaveConfigDefined = false)
    (h : processLine st l = .ok st') : st'.hasSlaveConfigDefined = false := by
  simp only [processLine] at h
  by_cases h1 : strStartsWith (goTrim l) "#" = true
  · rw [if_pos h1] at h
    cases h
    exact hst
  · rw [if_neg h1] at h
    by_cases h2 : strStartsWith (goTrim l) "[" = true
    · rw [if_pos h2] at h
      cases hsp : goSplit ']' (goTrim l).data with
      | nil => rw [hsp] at h; dsimp only at h; cases h
      | cons firstPart restParts =>
        rw [hsp] at h
        dsimp only at h
        by_cases h3 : restParts.isEmpty = true
        · rw [if_pos h3] at h; cases h
        · rw [if_neg h3] at h
          cases h
          exact hst
    · rw [if_neg h2] at h
      by_cases h4 : st.currentSectionName ≠ ""
      · rw [if_pos h4] at h
        by_cases h5 : (goTrim l).data.takeWhile (fun c => c ≠ ' ') ≠ [] ∧
            (goTrim l).data.dropWhile (fun c => c ≠ ' ') ≠ []
        · rw [if_pos h5] at h
          cases h
          simp only [hst, Bool.false_or]
          rw [decide_eq_false_iff_not]
          intro hs
          obtain ⟨c, t, hct⟩ := List.exists_cons_of_ne_nil h5.2
          have hc : c = ' ' := stored_value_head_space _ c t hct
          subst hc
          rcases hs with ⟨_, hv⟩ | ⟨_, hv⟩ | ⟨_, hv⟩ | ⟨_, hv⟩ <;> rw [hct] at hv
          · exact mk_space_cons_ne_digit t '0' (by decide) hv
          · exact mk_space_cons_ne_digit t '0' (by decide) hv
          · exact mk_space_cons_ne_digit t '1' (by decide) hv
          · exact mk_space_cons_ne_digit t '1' (by decide) hv
        · rw [if_neg h5] at h
          cases h
          exact hst
      · rw [if_neg h4] at h; cases h

theorem populateLines_hasSlave : ∀ (lines : List String) (st st' : ParseState),
    st.hasSlaveConfigDefined = false →
    populateLines lines st = .ok st' →
    st'.hasSlaveConfigDefined = false := by
  intro lines
  induction lines with
  | nil => intro st st' hst h; cases h; exact hst
  | cons l rest ih =>
    intro st st' hst h
    unfold populateLines at h
    cases hp : processLine st l with
    | error e => rw [hp] at h; cases h
    | ok st1 =>
      rw [hp] at h
      exact ih st1 st' (processLine_hasSlave st l st1 hst hp) h

theorem finalizeParse_GM (st : ParseState) (hst : st.hasSlaveConfigDefined = false) :
    (finalizeParse st).clock_type = ClockType.GM := by
  simp [finalizeParse, hst]

theorem populatePtp4lConf_clock_type_always_GM (config : Option String) (doc : ptp4lConf)
    (h : populatePtp4lConf config = .ok doc) : doc.clock_type = ClockType.GM := by
  cases config with
  | none =>
    simp only [populatePtp4lConf] at h
    cases h
    exact finalizeParse_GM _ rfl
  | some text =>
    simp only [populatePtp4lConf] at h
    cases hp : populateLines ((goSplit '\n' text.data).map String.mk) initParseState with
    | error e => rw [hp] at h; cases h
    | ok st =>
      rw [hp] at h
      cases h
      exact finalizeParse_GM st (populateLines_hasSlave _ initParseState st rfl hp)

theorem populatePtp4lConf_clock_type_always_GM_witness :
    populatePtp4lConf (some "[eth0]\nslaveOnly 1")
        = Except.ok ⟨[⟨"[eth0]", [("slaveOnly", " 1")]⟩, ⟨"[global]", []⟩], [], "", ClockType.GM, ""⟩
    ∧ ∀ doc : ptp4lConf, populatePtp4lConf (some "[eth0]\nslaveOnly 1") = .ok doc →
        doc.clock_type = ClockType.GM :=
  ⟨by decide, fun doc h => populatePtp4lConf_clock_type_always_GM _ doc h⟩

/-- C2: evaluating the extractor on the claim's example text. `dev1`
receives `["eth0","eth1"]` and network option 2 as claimed, but `dev2`
receives `["eth0","eth1","eth2"]` - the pending interface list is never
reset when a device is flushed, so every earlier interface leaks into
the next device, contradicting the extractor's own doc comment ("all
ports AFTER the device section UNTIL next device section"). -/
theorem extractSynceRelations_example_accumulates_ifaces :
    (populatePtp4lConf (some "[<dev1>]\nnetwork_option 2\n[eth0]\n[eth1]\n[<dev2>]\n[eth2]")).toOption.map
        extractSynceRelations
      = some
        [{ name := "dev1", ifaces := ["eth0", "eth1"], clockId := "", networkOption := 2,
           extendedTlv := 0, externalSource := "" },
         { name := "dev2", ifaces := ["eth0", "eth1", "eth2"], clockId := "", networkOption := 1,
           extendedTlv := 0, externalSource := "" }] := by decide

/-- C4: a device-marker section whose `network_option` value does not
parse as an integer completes without failing, but the device ends up
with network option 0 - `strconv.Atoi`'s zero result is kept, not the
default `SYNCE_NETWORK_OPT_1 = 1` the code's own log message claims to
retain. A malformed `extended_tlv` likewise keeps Atoi's 0, which only
coincidentally equals the disabled default. -/
theorem extractSynceRelations_bad_int_keeps_zero :
    ((populatePtp4lConf (some "[<dev1>]\nnetwork_option abc")).toOption.map extractSynceRelations
      = some [{ name := "dev1", ifaces := [], clockId := "", networkOption := 0,
                extendedTlv := 0, externalSource := "" }])
    ∧ ((populatePtp4lConf (some "[<dev1>]\nextended_tlv abc")).toOption.map extractSynceRelations
      = some [{ name := "dev1", ifaces := [], clockId := "", networkOption := 1,
                extendedTlv := 0, externalSource := "" }])
    ∧ (0 : Int) ≠ SYNCE_NETWORK_OPT_1 := by decide

/-- C5 counterexample: parsing the empty string - and any text with a
blank line before the first section header - fails with the
option-outside-section error instead of succeeding with an empty
`[global]` document, because a trimmed blank line is neither a comment
nor a header and no section is open. -/
theorem populatePtp4lConf_blank_text_errors :
    populatePtp4lConf (some "") = .error "Config option not in section: "
    ∧ populatePtp4lConf (some "\n\n") = .error "Config option not in section: " := by decide

/-- C3 counterexample: parse `"[global]\nk v"`, render it, and parse the
result: the rendered text starts with the profile-header comment
followed by a blank line, which the parser rejects, so the round trip
cannot reproduce any sections at all. (The rendered option line is also
`"k  v"`: the stored value keeps its leading space and the renderer
inserts another.) -/
theorem render_parse_roundtrip_fails_cex :
    populatePtp4lConf (some "[global]\nk v")
        = Except.ok ⟨[⟨"[global]", [("k", " v")]⟩], [], "", ClockType.GM, ""⟩
    ∧ (renderPtp4lConf ⟨[⟨"[global]", [("k", " v")]⟩], [], "", ClockType.GM, ""⟩).1
        = "#profile: \n\n[global]\nk  v"
    ∧ populatePtp4lConf
        (some (renderPtp4lConf ⟨[⟨"[global]", [("k", " v")]⟩], [], "", ClockType.GM, ""⟩).1)
        = .error "Config option not in section: " := by decide

/-- C6 counterexample: rendering the SyncE configuration of a document
whose device-marker section lacks `clock_id` writes the generated
identifier into that section's own options map - the post-call section
list differs from the pre-call one, so the Document is modified. -/
theorem renderSyncE4lConf_mutates_sections_cex :
    (renderSyncE4lConf ⟨[⟨"[<dev1>]", []⟩], [], "", ClockType.GM, ""⟩ (fun _ => "cid")).map
        (fun r => r.2.2)
      = some [⟨"[<dev1>]", [("clock_id", "cid")]⟩]
    ∧ ([⟨"[<dev1>]", [("clock_id", "cid")]⟩] : List ptp4lConfSection)
        ≠ [⟨"[<dev1>]", []⟩] := by decide

/-- C7 counterexample: a device-marker section whose stripped name is
empty (`[<>]`) produces no device in Relations, yet the renderer still
consumes an identifier for it - `relations.Devices[0]` is read on an
empty device list, an out-of-range access (Go: panic, modelled `none`),
not a reported StructuralMismatch error; the function's signature has no
error result at all. -/
theorem renderSyncE4lConf_oob_cex :
    renderSyncE4lConf ⟨[⟨"[<>]", []⟩], [], "", ClockType.GM, ""⟩ (fun _ => "") = none
    ∧ extractSynceRelations ⟨[⟨"[<>]", []⟩], [], "", ClockType.GM, ""⟩ = [] := by decide

/-- C8 counterexample: when the first device-marker section already
defines `clock_id` (kept, as claimed), the second marker - at appearance
position 1 - receives the identifier of the device at position 0, not
position 1: `deviceIdx` counts injections, not marker positions. -/
theorem renderSyncE4lConf_clock_id_misalign_cex :
    (renderSyncE4lConf
        ⟨[⟨"[<d1>]", [("clock_id", "X")]⟩, ⟨"[<d2>]", []⟩], [], "", ClockType.GM, ""⟩
        (fun n => "id_" ++ n)).map
        (fun r => (r.2.2.map (fun s => lookupOpt s.options "clock_id"),
                   r.2.1.map SynceConfig.clockId))
      = some ([some "X", some "id_d1"], ["id_d1", "id_d2"])
    ∧ ("id_d1" : String) ≠ "id_d2" := by decide

/-- C9 counterexample: `[eth0]` with `masterOnly 1` and no `[nmea]`
section: the returned Iface has `isMaster = false` although the flag is
present and parses as true (the appended literal copies only Name,
Source and PhcId), and its source is the zero-valued event source `""`,
not PPS. -/
theorem renderPtp4lConf_iface_flags_cex :
    (populatePtp4lConf (some "[eth0]\nmasterOnly 1")).toOption.map
        (fun d => (renderPtp4lConf d).2.2)
      = some [⟨"eth0", "", "", false⟩]
    ∧ ("" : EventSource) ≠ PPS
    ∧ goParseBool (goTrim " 1") = some true := by decide

/-- Without any device-marker section the accumulator's name is never
set, so no device is ever registered. -/
theorem extractLoop_no_marker :
    ∀ (secs : List ptp4lConfSection) (r : List SynceConfig) (ifaces : List String)
      (cur : SynceConfig),
      (∀ s ∈ secs, strStartsWith s.sectionName "[<" = false) →
      cur.name = "" →
      extractLoop secs r ifaces cur = r := by
  intro secs
  induction secs with
  | nil =>
    intro r ifaces cur _ hname
    simp only [extractLoop, flushSynceDevice]
    split
    · simp [hname]
    · simp [hname]
  | cons sec rest ih =>
    intro r ifaces cur hall hname
    have hsec : strStartsWith sec.sectionName "[<" = false := hall sec (by simp)
    have hrest : ∀ s ∈ rest, strStartsWith s.sectionName "[<" = false :=
      fun s hs => hall s (by simp [hs])
    simp only [extractLoop, hsec]
    split
    · rename_i hft; simp at hft
    · split
      · exact ih r ifaces _ hrest hname
      · split
        · exact ih r _ cur hrest hname
        · exact ih r ifaces cur hrest hname

/-- C10: a Document with no device-marker section yields an empty
Relations sequence, regardless of how many plain interface or
external-source sections it contains. -/
theorem extractSynceRelations_no_marker_no_devices (conf : ptp4lConf)
    (h : ∀ s ∈ conf.sections, strStartsWith s.sectionName "[<" = false) :
    extractSynceRelations conf = [] :=
  extractLoop_no_marker conf.sections [] [] zeroSynceConfig h rfl

/-- Witness for C10's theorem: a document with two plain interface
sections, an external-source section and `[global]` extracts no
devices. -/
theorem extractSynceRelations_no_marker_no_devices_witness :
    extractSynceRelations
        ⟨[⟨"[eth0]", []⟩, ⟨"[\x7bgnss\x7d]", []⟩, ⟨"[eth1]", []⟩, ⟨"[global]", []⟩],
         [], "", ClockType.GM, ""⟩ = [] :=
  extractSynceRelations_no_marker_no_devices
    ⟨[⟨"[eth0]", []⟩, ⟨"[\x7bgnss\x7d]", []⟩, ⟨"[eth1]", []⟩, ⟨"[global]", []⟩],
     [], "", ClockType.GM, ""⟩ (by decide)

/-- A run of lines that are all comments after trimming leaves the scan
state untouched. -/
theorem populateLines_comments :
    ∀ (lines : List String) (st : ParseState),
      (∀ l ∈ lines, strStartsWith (goTrim l) "#" = true) →
      populateLines lines st = .ok st := by
  intro lines
  induction lines with
  | nil => intro st _; rfl
  | cons l rest ih =>
    intro st hall
    have hl : strStartsWith (goTrim l) "#" = true := hall l (by simp)
    have hstep : processLine st l = .ok st := by
      simp only [processLine, hl, if_pos]
    simp only [populateLines, hstep]
    exact ih st (fun l hl => hall l (by simp [hl]))

/-- C5 amended: parsing an absent (`nil`) configuration, or text every
line of which is a comment after trimming, succeeds and yields exactly
one empty `[global]` section classified GrandMaster. (The empty string
and blank-only text instead fail: a blank line outside any section is
the option-outside-section error - see the counterexample.) -/
theorem populatePtp4lConf_comments_only_ok (config : Option String)
    (h : config = none ∨ ∃ text, config = some text ∧
        ∀ l ∈ (goSplit '\n' text.data).map String.mk, strStartsWith (goTrim l) "#" = true) :
    populatePtp4lConf config = .ok ⟨[⟨"[global]", []⟩], [], "", ClockType.GM, ""⟩ := by
  rcases h with h | ⟨text, rfl, hall⟩
  · subst h; rfl
  · simp only [populatePtp4lConf, populateLines_comments _ initParseState hall]
    rfl

/-- Witness for C5's amended theorem: comment-only text parses to the
single empty `[global]` GrandMaster document. -/
theorem populatePtp4lConf_comments_only_ok_witness :
    populatePtp4lConf (some "# a comment\n  # another")
      = .ok ⟨[⟨"[global]", []⟩], [], "", ClockType.GM, ""⟩ :=
  populatePtp4lConf_comments_only_ok (some "# a comment\n  # another")
    (Or.inr ⟨"# a comment\n  # another", rfl, by decide⟩)

/-- Number of device-marker sections lacking a `clock_id` option - the
number of identifiers the SyncE renderer will consume. -/
def clockIdNeedCount : List ptp4lConfSection → Nat
  | [] => 0
  | sec :: rest =>
    (if strStartsWith sec.sectionName "[<" ∧ lookupOpt sec.options "clock_id" = none
     then 1 else 0) + clockIdNeedCount rest

theorem synceRenderLoop_isSome (rels : List SynceConfig) :
    ∀ (secs : List ptp4lConfSection) (out : String) (idx : Nat),
      (synceRenderLoop rels secs out idx).isSome = true ↔
        (clockIdNeedCount secs = 0 ∨ idx + clockIdNeedCount secs ≤ rels.length) := by
  intro secs
  induction secs with
  | nil =>
    intro out idx
    simp [synceRenderLoop, clockIdNeedCount]
  | cons sec rest ih =>
    intro out idx
    simp only [synceRenderLoop, clockIdNeedCount]
    by_cases hc : strStartsWith sec.sectionName "[<" = true ∧ lookupOpt sec.options "clock_id" = none
    · rw [if_pos hc, if_pos hc]
      cases hg : rels.get? idx with
      | none =>
        have hlen : rels.length ≤ idx := List.get?_eq_none.mp hg
        simp only [Option.isSome_none]
        constructor
        · intro hfalse; cases hfalse
        · intro hor; omega
      | some d =>
        have hlt : idx < rels.length := (List.get?_eq_some.mp hg).1
        dsimp only
        rw [Option.isSome_map', ih _ (idx + 1)]
        omega
    · rw [if_neg hc, if_neg hc]
      rw [Option.isSome_map', ih _ idx]
      omega

/-- C7 amended: `renderSyncE4lConf` reports no error value at all; it
completes exactly when the number of device-marker sections lacking
`clock_id` does not exceed the number of extracted devices, and
otherwise it fails with an out-of-range access on
`relations.Devices[deviceIdx]` (modelled as `none`), never with a
reported StructuralMismatch. -/
theorem renderSyncE4lConf_isSome_iff (conf : ptp4lConf) (f : String → String) :
    (renderSyncE4lConf conf f).isSome = true ↔
      clockIdNeedCount conf.sections ≤ (extractSynceRelations conf).length := by
  unfold renderSyncE4lConf
  rw [Option.isSome_map', synceRenderLoop_isSome]
  have hlen : (addClockIds f (extractSynceRelations conf)).length
      = (extractSynceRelations conf).length := List.length_map _ _
  rw [hlen]
  omega

/-- The "next unused device" injection the renderer actually performs:
walking the sections, each device-marker section lacking `clock_id`
receives the identifier of the next not-yet-consumed device (an index
that advances only on injection), all other sections are unchanged. -/
def clockIdAt (rels : List SynceConfig) (idx : Nat) : String :=
  ((rels.get? idx).map SynceConfig.clockId).getD ""

def injectNextUnused (rels : List SynceConfig) :
    Nat → List ptp4lConfSection → List ptp4lConfSection
  | _, [] => []
  | idx, sec :: rest =>
    if strStartsWith sec.sectionName "[<" ∧ lookupOpt sec.options "clock_id" = none then
      { sec with options := setOpt sec.options "clock_id" (clockIdAt rels idx) }
        :: injectNextUnused rels (idx + 1) rest
    else
      sec :: injectNextUnused rels idx rest

theorem synceRenderLoop_sections (rels : List SynceConfig) :
    ∀ (secs : List ptp4lConfSection) (out out' : String) (idx : Nat)
      (secs' : List ptp4lConfSection),
      synceRenderLoop rels secs out idx = some (out', secs') →
      secs' = injectNextUnused rels idx secs := by
  intro secs
  induction secs with
  | nil =>
    intro out out' idx secs' h
    cases h
    rfl
  | cons sec rest ih =>
    intro out out' idx secs' h
    simp only [synceRenderLoop] at h
    by_cases hc : strStartsWith sec.sectionName "[<" = true ∧ lookupOpt sec.options "clock_id" = none
    · rw [if_pos hc] at h
      cases hg : rels.get? idx with
      | none => rw [hg] at h; cases h
      | some d =>
        rw [hg] at h
        dsimp only at h
        rw [Option.map_eq_some'] at h
        obtain ⟨⟨o2, s2⟩, hrec, heq⟩ := h
        cases heq
        simp only [injectNextUnused, if_pos hc, clockIdAt, hg]
        rw [ih _ _ _ _ hrec]
        rfl
    · rw [if_neg hc] at h
      rw [Option.map_eq_some'] at h
      obtain ⟨⟨o2, s2⟩, hrec, heq⟩ := h
      cases heq
      simp only [injectNextUnused, if_neg hc]
      rw [ih _ _ _ _ hrec]

/-- C8 amended: a device-marker section already holding `clock_id` is
kept unchanged, and the post-call sections are exactly the
next-unused-device injection: the k-th marker section lacking
`clock_id` (counting only such sections, in document order) receives
the identifier of device k of the clock-id-assigned Relations - not the
device at the marker's own appearance position when earlier markers
already define `clock_id`. -/
theorem renderSyncE4lConf_injects_next_unused (conf : ptp4lConf) (f : String → String)
    (out : String) (rels : List SynceConfig) (secs' : List ptp4lConfSection)
    (h : renderSyncE4lConf conf f = some (out, rels, secs')) :
    rels = addClockIds f (extractSynceRelations conf) ∧
    secs' = injectNextUnused rels 0 conf.sections := by
  unfold renderSyncE4lConf at h
  rw [Option.map_eq_some'] at h
  obtain ⟨⟨o2, s2⟩, hrec, heq⟩ := h
  cases heq
  exact ⟨rfl, synceRenderLoop_sections _ _ _ _ _ _ hrec⟩

/-- Witness for C8's amended theorem at the misalignment document: the
second marker receives device 0's identifier, as `injectNextUnused`
predicts. -/
theorem renderSyncE4lConf_injects_next_unused_witness :
    renderSyncE4lConf
        ⟨[⟨"[<d1>]", [("clock_id", "X")]⟩, ⟨"[<d2>]", []⟩], [], "", ClockType.GM, ""⟩
        (fun n => "id_" ++ n)
      = some ("#profile: \n\n[<d1>]\nclock_id X\n[<d2>]\nclock_id id_d1",
              [⟨"d1", [], "id_d1", 1, 0, ""⟩, ⟨"d2", [], "id_d2", 1, 0, ""⟩],
              [⟨"[<d1>]", [("clock_id", "X")]⟩, ⟨"[<d2>]", [("clock_id", "id_d1")]⟩])
    ∧ [⟨"[<d1>]", [("clock_id", "X")]⟩, ⟨"[<d2>]", [("clock_id", "id_d1")]⟩]
        = injectNextUnused [⟨"d1", [], "id_d1", 1, 0, ""⟩, ⟨"d2", [], "id_d2", 1, 0, ""⟩] 0
            [⟨"[<d1>]", [("clock_id", "X")]⟩, ⟨"[<d2>]", []⟩] :=
  ⟨by decide,
   (renderSyncE4lConf_injects_next_unused
      ⟨[⟨"[<d1>]", [("clock_id", "X")]⟩, ⟨"[<d2>]", []⟩], [], "", ClockType.GM, ""⟩
      (fun n => "id_" ++ n)
      "#profile: \n\n[<d1>]\nclock_id X\n[<d2>]\nclock_id id_d1"
      [⟨"d1", [], "id_d1", 1, 0, ""⟩, ⟨"d2", [], "id_d2", 1, 0, ""⟩]
      [⟨"[<d1>]", [("clock_id", "X")]⟩, ⟨"[<d2>]", [("clock_id", "id_d1")]⟩]
      (by decide)).2⟩

theorem injectNextUnused_frame (rels : List SynceConfig) :
    ∀ (secs : List ptp4lConfSection) (idx : Nat),
      List.Forall₂ (fun s s' : ptp4lConfSection =>
        s'.sectionName = s.sectionName ∧
        (¬(strStartsWith s.sectionName "[<" = true ∧ lookupOpt s.options "clock_id" = none) →
          s' = s) ∧
        ((strStartsWith s.sectionName "[<" = true ∧ lookupOpt s.options "clock_id" = none) →
          ∃ id, s'.options = setOpt s.options "clock_id" id))
        secs (injectNextUnused rels idx secs) := by
  intro secs
  induction secs with
  | nil => intro idx; simp [injectNextUnused]
  | cons sec rest ih =>
    intro idx
    simp only [injectNextUnused]
    by_cases hc : strStartsWith sec.sectionName "[<" = true ∧ lookupOpt sec.options "clock_id" = none
    · rw [if_pos hc]
      exact List.Forall₂.cons ⟨rfl, fun hn => absurd hc hn, fun _ => ⟨_, rfl⟩⟩ (ih (idx + 1))
    · rw [if_neg hc]
      exact List.Forall₂.cons ⟨rfl, fun _ => rfl, fun hcc => absurd hcc hc⟩ (ih idx)

/-- C6 amended: `renderSyncE4lConf` does modify the Document's options
maps, but only by injecting `clock_id` into device-marker sections that
lack it: after the call each section keeps its name, every section that
is not a `clock_id`-lacking device marker is completely unchanged, and a
`clock_id`-lacking device marker changes exactly by acquiring a
`clock_id` entry. (`renderPtp4lConf` touches no section at all - it only
rebuilds `conf.mapping` - as its model's type already shows.) -/
theorem renderSyncE4lConf_section_frame (conf : ptp4lConf) (f : String → String)
    (out : String) (rels : List SynceConfig) (secs' : List ptp4lConfSection)
    (h : renderSyncE4lConf conf f = some (out, rels, secs')) :
    List.Forall₂ (fun s s' : ptp4lConfSection =>
      s'.sectionName = s.sectionName ∧
      (¬(strStartsWith s.sectionName "[<" = true ∧ lookupOpt s.options "clock_id" = none) →
        s' = s) ∧
      ((strStartsWith s.sectionName "[<" = true ∧ lookupOpt s.options "clock_id" = none) →
        ∃ id, s'.options = setOpt s.options "clock_id" id))
      conf.sections secs' := by
  unfold renderSyncE4lConf at h
  rw [Option.map_eq_some'] at h
  obtain ⟨⟨o2, s2⟩, hrec, heq⟩ := h
  cases heq
  have hs : s2 = injectNextUnused (addClockIds f (extractSynceRelations conf)) 0 conf.sections :=
    synceRenderLoop_sections _ _ _ _ _ _ hrec
  rw [hs]
  exact injectNextUnused_frame _ _ _

/-- Witness for C6's amended theorem at a one-marker document. -/
theorem renderSyncE4lConf_section_frame_witness :
    List.Forall₂ (fun s s' : ptp4lConfSection =>
      s'.sectionName = s.sectionName ∧
      (¬(strStartsWith s.sectionName "[<" = true ∧ lookupOpt s.options "clock_id" = none) →
        s' = s) ∧
      ((strStartsWith s.sectionName "[<" = true ∧ lookupOpt s.options "clock_id" = none) →
        ∃ id, s'.options = setOpt s.options "clock_id" id))
      [⟨"[<dev1>]", []⟩] [⟨"[<dev1>]", [("clock_id", "cid")]⟩] :=
  renderSyncE4lConf_section_frame
    ⟨[⟨"[<dev1>]", []⟩], [], "", ClockType.GM, ""⟩ (fun _ => "cid")
    "#profile: \n\n[<dev1>]\nclock_id cid"
    [⟨"dev1", [], "cid", 1, 0, ""⟩]
    [⟨"[<dev1>]", [("clock_id", "cid")]⟩]
    (by decide)

/-- C9's amended side-artifact specification, following the renderer: a
non-`[global]`, non-`[nmea]` section yields one entry whose name is the
bracket-stripped section name and whose source comes from the section's
own `ts2phc.master` option, else from the most recent preceding `[nmea]`
value, else the zero-valued event source (`""` - not PPS); the entry's
`isMaster` is always `false` because the appended Go literal omits the
parsed flag, and `phcId` is left empty for an external collaborator. -/
def ifacesSpec (nmea : EventSource) : List ptp4lConfSection → List Iface
  | [] => []
  | sec :: rest =>
    let nmea' :=
      if sec.sectionName = "[nmea]" then
        match lookupOpt sec.options "ts2phc.master" with
        | some s => getSource s
        | none => nmea
      else nmea
    if sec.sectionName ≠ "[global]" ∧ sec.sectionName ≠ "[nmea]" then
      let i := String.mk (sec.sectionName.data.filter (fun c => ¬(c = '[' ∨ c = ']')))
      let source :=
        match lookupOpt sec.options "ts2phc.master" with
        | some s => getSource s
        | none => nmea'
      { name := i, source := source, phcId := "", isMaster := false } :: ifacesSpec nmea' rest
    else ifacesSpec nmea' rest

theorem ptp4lRenderLoop_ifaces :
    ∀ (secs : List ptp4lConfSection) (out : String) (nmea : EventSource)
      (mapping : List String) (ifaces : List Iface),
      (ptp4lRenderLoop secs out nmea mapping ifaces).2.2 = ifaces ++ ifacesSpec nmea secs := by
  intro secs
  induction secs with
  | nil =>
    intro out nmea mapping ifaces
    simp [ptp4lRenderLoop, ifacesSpec]
  | cons sec rest ih =>
    intro out nmea mapping ifaces
    simp only [ptp4lRenderLoop, ifacesSpec]
    by_cases hc : sec.sectionName ≠ "[global]" ∧ sec.sectionName ≠ "[nmea]"
    · rw [if_pos hc, if_pos hc, ih]
      simp [List.append_assoc]
    · rw [if_neg hc, if_neg hc, ih]

/-- C9 amended: the `Iface` side artifact of `renderPtp4lConf` is
exactly `ifacesSpec` started from the zero-valued nmea source: names are
the bracket-stripped section names in document order, the event source
falls back from the section's own `ts2phc.master` to the last `[nmea]`
value to `""` (not PPS), and every returned entry has
`isMaster = false` - the parsed `masterOnly` flag is dropped. -/
theorem renderPtp4lConf_ifaces_spec (conf : ptp4lConf) :
    (renderPtp4lConf conf).2.2 = ifacesSpec "" conf.sections := by
  unfold renderPtp4lConf
  simpa using ptp4lRenderLoop_ifaces conf.sections ("#profile: " ++ conf.profile_name ++ "\n") "" [] []

theorem goSplit_sep_cons (sep : Char) (r : List Char) :
    goSplit sep (sep :: r) = [] :: goSplit sep r := by
  simp [goSplit]

theorem goSplit_append_sep (sep : Char) :
    ∀ (l r : List Char), sep ∉ l → goSplit sep (l ++ sep :: r) = l :: goSplit sep r := by
  intro l
  induction l with
  | nil =>
    intro r _
    simpa using goSplit_sep_cons sep r
  | cons a l ih =>
    intro r hnot
    have ha : ¬(a = sep) := fun hh => hnot (by simp [hh])
    have hl : sep ∉ l := fun hm => hnot (by simp [hm])
    simp only [List.cons_append, goSplit, List.append_eq]
    rw [if_neg ha, ih r hl]

theorem renderOptions_data :
    ∀ (opts : List (String × String)) (out : String),
      ∃ t : List Char, (renderOptions out opts).data = out.data ++ t := by
  intro opts
  induction opts with
  | nil => intro out; exact ⟨[], by simp [renderOptions]⟩
  | cons kv rest ih =>
    intro out
    obtain ⟨t, ht⟩ := ih (out ++ "\n" ++ kv.1 ++ " " ++ kv.2)
    refine ⟨("\n" ++ kv.1 ++ " " ++ kv.2).data ++ t, ?_⟩
    have hstep : renderOptions out (kv :: rest)
        = renderOptions (out ++ "\n" ++ kv.1 ++ " " ++ kv.2) rest := rfl
    rw [hstep, ht]
    simp [string_data_append, List.append_assoc]

/-- The rendered text only ever grows by appending, and whenever at
least one section is rendered the appended tail begins with the newline
preceding the first section header. -/
theorem ptp4lRenderLoop_out :
    ∀ (secs : List ptp4lConfSection) (out : String) (nmea : EventSource)
      (mapping : List String) (ifaces : List Iface),
      ∃ t : List Char, (ptp4lRenderLoop secs out nmea mapping ifaces).1.data = out.data ++ t
        ∧ (t = [] ∨ ∃ t', t = '\n' :: t') := by
  intro secs
  induction secs with
  | nil =>
    intro out nmea mapping ifaces
    exact ⟨[], by simp [ptp4lRenderLoop], Or.inl rfl⟩
  | cons sec rest ih =>
    intro out nmea mapping ifaces
    simp only [ptp4lRenderLoop]
    obtain ⟨u, hu⟩ := renderOptions_data sec.options (out ++ "\n" ++ sec.sectionName)
    by_cases hc : sec.sectionName ≠ "[global]" ∧ sec.sectionName ≠ "[nmea]"
    · rw [if_pos hc]
      obtain ⟨t, ht, _⟩ := ih (renderOptions (out ++ "\n" ++ sec.sectionName) sec.options) _ _ _
      refine ⟨'\n' :: (sec.sectionName.data ++ (u ++ t)), ?_, Or.inr ⟨_, rfl⟩⟩
      rw [ht, hu]
      simp [string_data_append, List.append_assoc]
    · rw [if_neg hc]
      obtain ⟨t, ht, _⟩ := ih (renderOptions (out ++ "\n" ++ sec.sectionName) sec.options) _ _ _
      refine ⟨'\n' :: (sec.sectionName.data ++ (u ++ t)), ?_, Or.inr ⟨_, rfl⟩⟩
      rw [ht, hu]
      simp [string_data_append, List.append_assoc]

theorem populatePtp4lConf_profile (config : Option String) (doc : ptp4lConf)
    (h : populatePtp4lConf config = .ok doc) : doc.profile_name = "" := by
  cases config with
  | none =>
    simp only [populatePtp4lConf] at h
    cases h
    rfl
  | some text =>
    simp only [populatePtp4lConf] at h
    cases hp : populateLines ((goSplit '\n' text.data).map String.mk) initParseState with
    | error e => rw [hp] at h; cases h
    | ok st => rw [hp] at h; cases h; rfl

theorem populateLines_profile_blank (ls : List String) :
    populateLines ("#profile: " :: "" :: ls) initParseState
      = .error "Config option not in section: " := by
  have h1 : processLine initParseState "#profile: " = .ok initParseState := by decide
  have h2 : processLine initParseState "" = .error "Config option not in section: " := by decide
  simp [populateLines, h1, h2]

/-- C3 amended: the rendered text of a parsed document never re-parses:
the profile-header comment line is followed by a blank line (the `\n`
terminating the header plus the `\n` prepended to the first section - or
end of text when there are no sections), and a blank line before any
section header is the fatal option-outside-section error. Hence no
`render`/`parse` round trip reproduces the document's sections; moreover
each emitted option line is `key ++ " " ++ value` with the stored value
already carrying its leading space, so even the individual option lines
denote values with one extra leading space. -/
theorem render_output_never_reparses (text : String) (doc : ptp4lConf)
    (h : populatePtp4lConf (some text) = .ok doc) :
    populatePtp4lConf (some (renderPtp4lConf doc).1)
      = .error "Config option not in section: " := by
  have hprof : doc.profile_name = "" := populatePtp4lConf_profile _ _ h
  obtain ⟨t, ht, hsh⟩ := ptp4lRenderLoop_out doc.sections
    ("#profile: " ++ doc.profile_name ++ "\n") "" [] []
  rw [hprof] at ht
  have hhead : ("#profile: " ++ "" ++ "\n" : String).data
      = "#profile: ".data ++ ['\n'] := by decide
  rw [hhead] at ht
  have hre : (renderPtp4lConf doc).1
      = (ptp4lRenderLoop doc.sections ("#profile: " ++ doc.profile_name ++ "\n") "" [] []).1 := rfl
  rw [hprof] at hre
  have hdata : ((renderPtp4lConf doc).1).data = "#profile: ".data ++ '\n' :: t := by
    rw [hre, ht]
    simp [List.append_assoc]
  have hnin : '\n' ∉ "#profile: ".data := by decide
  obtain ⟨ls, hlines⟩ : ∃ ls, (goSplit '\n' ((renderPtp4lConf doc).1).data).map String.mk
      = "#profile: " :: "" :: ls := by
    rcases hsh with rfl | ⟨t', rfl⟩
    · refine ⟨[], ?_⟩
      rw [hdata, goSplit_append_sep '\n' "#profile: ".data [] hnin]
      simp [string_mk_data, goSplit]
    · refine ⟨(goSplit '\n' t').map String.mk, ?_⟩
      rw [hdata, goSplit_append_sep '\n' "#profile: ".data ('\n' :: t') hnin,
        goSplit_sep_cons]
      simp [string_mk_data]
  simp only [populatePtp4lConf, hlines, populateLines_profile_blank]

/-- Witness for C3's amended theorem at the round-trip counterexample
document. -/
theorem render_output_never_reparses_witness :
    populatePtp4lConf
        (some (renderPtp4lConf ⟨[⟨"[global]", [("k", " v")]⟩], [], "", ClockType.GM, ""⟩).1)
      = .error "Config option not in section: " :=
  render_output_never_reparses "[global]\nk v"
    ⟨[⟨"[global]", [("k", " v")]⟩], [], "", ClockType.GM, ""⟩ (by decide)

end LinuxptpDaemon
